import Mathlib

/-!
Verification of the cybertantra RAG query path.

This file gives a shallow embedding of the retrieval/ranking core of the
repository and proves the specification claims about it.  JavaScript strings
are modelled as lists of characters; asynchronous effectful code is modelled
as pure functions that additionally return the ordered list of externally
visible events (replies, retrieval calls, completion calls, message edits)
produced during a request, with the external collaborators (embedding plus
vector store, completion provider, Telegram transport) supplied as oracles.

Embedded source locations:
  apps/cybertantra/app/api/telegram/webhook/route.ts
    checkRateLimit (lines 14-26), handleQuestion (lines 65-173),
    splitMessage (lines 175-195)
  the chat endpoint POST handler (retrieval at k = 10, context assembly,
    error responses).
-/

/-- JavaScript strings are modelled as lists of UTF code points. -/
abbrev Str := List Char

/-- Conversion from Lean string literals to the model type. -/
def str (s : String) : Str := s.toList

/-- Decimal rendering of a natural number, as JavaScript renders numbers
interpolated into template literals. -/
def natStr (n : Nat) : Str := (Nat.repr n).toList

/-! ## Rate limiter (route.ts lines 9-26)

The module-level map `rateLimits : Map<string, number[]>` is modelled as a
total function from identities to timestamp lists, absent identities mapping
to the empty list (the source reads `rateLimits.get(userId) || []`).
Timestamps are integers (milliseconds). -/

/-- Source constant RATE_LIMIT_WINDOW = 60000 (route.ts line 11). -/
def RATE_LIMIT_WINDOW : Int := 60000

/-- Source constant MAX_REQUESTS = 10 (route.ts line 12). -/
def MAX_REQUESTS : Nat := 10

/-- Embedding of checkRateLimit (route.ts lines 14-26): filter the stored
timestamps to those with now - t < RATE_LIMIT_WINDOW; if at least
MAX_REQUESTS remain, return false leaving the map unchanged; otherwise push
the current time, store the list, and return true. -/
def checkRateLimit (userId : Str) (now : Int) (rateLimits : Str → List Int) :
    Bool × (Str → List Int) :=
  let userRequests := rateLimits userId
  let validRequests := userRequests.filter (fun t => now - t < RATE_LIMIT_WINDOW)
  if MAX_REQUESTS ≤ validRequests.length then
    (false, rateLimits)
  else
    (true, Function.update rateLimits userId (validRequests ++ [now]))

/-- A sequence of checkRateLimit calls, each given by an identity and the
value of Date.now() at that call, threaded through the shared map; returns
the list of allowed/denied outcomes and the final map. -/
def stepCalls : List (Str × Int) → (Str → List Int) → List Bool × (Str → List Int)
  | [], rateLimits => ([], rateLimits)
  | (userId, now) :: rest, rateLimits =>
    let r := checkRateLimit userId now rateLimits
    let rr := stepCalls rest r.2
    (r.1 :: rr.1, rr.2)

/-- One call of checkRateLimit: prune to the in-window timestamps; exactly
when fewer than MAX_REQUESTS remain, record the new timestamp and allow. -/
lemma checkRateLimit_eq (rl : Str → List Int) (userId : Str) (now : Int) :
    checkRateLimit userId now rl =
      (let valid := (rl userId).filter (fun t => now - t < RATE_LIMIT_WINDOW)
       if valid.length < MAX_REQUESTS then
         (true, Function.update rl userId (valid ++ [now]))
       else (false, rl)) := by
  simp only [checkRateLimit]
  by_cases h : MAX_REQUESTS ≤ ((rl userId).filter (fun t => now - t < RATE_LIMIT_WINDOW)).length
  · rw [if_pos h, if_neg (by omega)]
  · rw [if_neg h, if_pos (by omega)]

/-- Outcomes of a run of calls for a single identity whose timestamps all lie
within one window of each other: with a prior stored list pre for that
identity, the first MAX_REQUESTS - pre.length calls are allowed and every
later call is denied. -/
lemma stepCalls_same_id (userId : Str) :
    ∀ (ts : List Int) (pre : List Int) (rl : Str → List Int),
      rl userId = pre →
      (∀ s ∈ pre ++ ts, ∀ t ∈ pre ++ ts, s - t < RATE_LIMIT_WINDOW) →
      (stepCalls (ts.map (fun t => (userId, t))) rl).1 =
        List.replicate (min ts.length (MAX_REQUESTS - pre.length)) true ++
        List.replicate (ts.length - (MAX_REQUESTS - pre.length)) false
  | [], pre, rl, hpre, hwin => by simp [stepCalls]
  | t :: rest, pre, rl, hpre, hwin => by
    have hkeep : pre.filter (fun p => t - p < RATE_LIMIT_WINDOW) = pre := by
      rw [List.filter_eq_self]
      intro p hp
      simp only [decide_eq_true_eq]
      exact hwin t (by simp) p (by simp [hp])
    simp only [List.map, stepCalls, checkRateLimit, hpre, hkeep]
    by_cases h : MAX_REQUESTS ≤ pre.length
    · rw [if_pos h]
      have ih := stepCalls_same_id userId rest pre rl hpre (by
        intro s hs u hu
        refine hwin s ?_ u ?_ <;>
          (simp only [List.mem_append, List.mem_cons] at *; tauto))
      simp only [ih]
      have h1 : MAX_REQUESTS - pre.length = 0 := by omega
      simp [h1, List.replicate_succ]
    · rw [if_neg h]
      have hupd : (Function.update rl userId (pre ++ [t])) userId = pre ++ [t] := by
        simp
      have ih := stepCalls_same_id userId rest (pre ++ [t])
        (Function.update rl userId (pre ++ [t])) hupd (by
          intro s hs u hu
          refine hwin s ?_ u ?_ <;>
            (simp only [List.mem_append, List.mem_cons] at *; tauto))
      simp only [ih]
      have h1 : min (rest.length + 1) (MAX_REQUESTS - pre.length) =
          min rest.length (MAX_REQUESTS - (pre ++ [t]).length) + 1 := by
        simp only [List.length_append, List.length_cons, List.length_nil]
        omega
      have h2 : (rest.length + 1) - (MAX_REQUESTS - pre.length) =
          rest.length - (MAX_REQUESTS - (pre ++ [t]).length) := by
        simp only [List.length_append, List.length_cons, List.length_nil]
        omega
      simp only [List.length_cons, h1, h2, List.replicate_succ, List.cons_append]

/-- C1: checkRateLimit prunes the identity's stored timestamps to those
within the 60000 ms window, allows and records the new timestamp exactly
when fewer than MAX_REQUESTS = 10 remain, and otherwise denies without
recording; consequently, of eleven calls for one identity all within 60 s
of each other, the first ten are allowed and the eleventh is denied, and a
call whose in-window set is empty (the window has elapsed past every stored
timestamp) is allowed again. -/
theorem checkRateLimit_correct :
    (∀ (rl : Str → List Int) (userId : Str) (now : Int),
      checkRateLimit userId now rl =
        (let valid := (rl userId).filter (fun t => now - t < RATE_LIMIT_WINDOW)
         if valid.length < MAX_REQUESTS then
           (true, Function.update rl userId (valid ++ [now]))
         else (false, rl))) ∧
    (∀ (userId : Str) (ts : List Int),
      ts.length = 11 →
      (∀ s ∈ ts, ∀ t ∈ ts, s - t < RATE_LIMIT_WINDOW) →
      (stepCalls (ts.map (fun t => (userId, t))) (fun _ => [])).1 =
        List.replicate 10 true ++ [false]) ∧
    (∀ (rl : Str → List Int) (userId : Str) (now : Int),
      (∀ t ∈ rl userId, RATE_LIMIT_WINDOW ≤ now - t) →
      (checkRateLimit userId now rl).1 = true) := by
  refine ⟨checkRateLimit_eq, ?_, ?_⟩
  · intro userId ts hlen hwin
    have h := stepCalls_same_id userId ts [] (fun _ => []) rfl (by simpa using hwin)
    rw [h, hlen]
    rfl
  · intro rl userId now h
    have hfil : (rl userId).filter (fun t => now - t < RATE_LIMIT_WINDOW) = [] := by
      rw [List.filter_eq_nil_iff]
      intro t ht
      simp only [decide_eq_true_eq, not_lt]
      exact h t ht
    simp [checkRateLimit, hfil, MAX_REQUESTS]

/-- Witness for C1: eleven calls at times 0..10 for one identity yield ten
allowed outcomes then a denial, and a call at time 70000 against a single
stored timestamp 0 is allowed again. -/
theorem checkRateLimit_correct_witness :
    ((stepCalls (([0, 1, 2, 3, 4, 5, 6, 7, 8, 9, 10] : List Int).map
        (fun t => (str "u", t))) (fun _ => [])).1 =
      List.replicate 10 true ++ [false]) ∧
    (checkRateLimit (str "u") 70000 (fun _ => [0])).1 = true := by
  constructor
  · exact checkRateLimit_correct.2.1 (str "u") [0, 1, 2, 3, 4, 5, 6, 7, 8, 9, 10]
      (by decide) (by decide)
  · exact checkRateLimit_correct.2.2 (fun _ => [0]) (str "u") 70000 (by decide)

/-- One checkRateLimit call keeps every stored list at length at most
MAX_REQUESTS, since a list is only replaced by a pruned list of length
strictly below MAX_REQUESTS extended by one element. -/
lemma checkRateLimit_preserves (userId : Str) (now : Int) (rl : Str → List Int)
    (h : ∀ i, (rl i).length ≤ MAX_REQUESTS) :
    ∀ i, (((checkRateLimit userId now rl).2) i).length ≤ MAX_REQUESTS := by
  intro i
  simp only [checkRateLimit]
  by_cases hc : MAX_REQUESTS ≤ ((rl userId).filter (fun t => now - t < RATE_LIMIT_WINDOW)).length
  · rw [if_pos hc]
    exact h i
  · rw [if_neg hc]
    dsimp only
    by_cases hi : i = userId
    · subst hi
      simp only [Function.update_same, List.length_append, List.length_cons, List.length_nil]
      have := List.length_filter_le (fun t => decide (now - t < RATE_LIMIT_WINDOW)) (rl i)
      omega
    · rw [Function.update_noteq hi]
      exact h i

/-- The bound of checkRateLimit_preserves is kept along any call sequence. -/
lemma stepCalls_preserves : ∀ (calls : List (Str × Int)) (rl : Str → List Int),
    (∀ i, (rl i).length ≤ MAX_REQUESTS) →
    ∀ i, (((stepCalls calls rl).2) i).length ≤ MAX_REQUESTS
  | [], rl, h, i => h i
  | (userId, now) :: rest, rl, h, i => by
    simp only [stepCalls]
    exact stepCalls_preserves rest _ (checkRateLimit_preserves userId now rl h) i

/-- C9: starting from the empty map, after any finite sequence of
checkRateLimit calls for any identities, the timestamp list stored for
each identity has length at most MAX_REQUESTS = 10. -/
theorem rateLimits_bounded (calls : List (Str × Int)) (userId : Str) :
    ((stepCalls calls (fun _ => [])).2 userId).length ≤ MAX_REQUESTS :=
  stepCalls_preserves calls (fun _ => []) (fun _ => by simp) userId

/-! ## Context assembly (chat endpoint and route.ts lines 93-99)

Both endpoints run
  chunks.map((chunk, i) => <left bracket>i+1<right bracket> From
    "chunk.source":\n chunk.text).join('\n\n---\n\n')
and prepend CYBERTANTRA_SYSTEM_PROMPT plus a fixed tag.  The retrieved
results carry a source name, a text, and a similarity score; the score is a
float used only through Math.round(score * 100), which we model directly as
the natural number scorePct. -/

/-- A retrieved result as consumed by the endpoints. -/
structure Chunk where
  source : Str
  text : Str
  scorePct : Nat
deriving DecidableEq

/-- The annotated passage produced for the result at 0-based map index i. -/
def annotateChunk (i : Nat) (c : Chunk) : Str :=
  str "[" ++ natStr (i + 1) ++ str "] From \"" ++ c.source ++ str "\":\n" ++ c.text

/-- chunks.map((chunk, i) => ...) starting at map index i. -/
def contextPassagesFrom (i : Nat) : List Chunk → List Str
  | [] => []
  | c :: cs => annotateChunk i c :: contextPassagesFrom (i + 1) cs

/-- Array.prototype.join with a separator: empty for the empty array, the
sole element for a singleton, otherwise interleaves the separator. -/
def joinSep (sep : Str) : List Str → Str
  | [] => []
  | [x] => x
  | x :: xs => x ++ sep ++ joinSep sep xs

/-- The separator string of .join('\n\n---\n\n'). -/
def CONTEXT_SEP : Str := str "\n\n---\n\n"

/-- The context block assembled from the retrieved results. -/
def buildContext (chunks : List Chunk) : Str :=
  joinSep CONTEXT_SEP (contextPassagesFrom 0 chunks)

/-- The fixed text both endpoints place between the persona prompt and the
context block. -/
def CONTEXT_TAG : Str := str "\n\nRetrieved lecture context:\n"

/-- systemPrompt = CYBERTANTRA_SYSTEM_PROMPT + tag + context; the persona
prompt text lives outside the sources at hand, so it is a parameter. -/
def assembleSystemPrompt (persona : Str) (chunks : List Chunk) : Str :=
  persona ++ CONTEXT_TAG ++ buildContext chunks

lemma contextPassagesFrom_length : ∀ (k : Nat) (chunks : List Chunk),
    (contextPassagesFrom k chunks).length = chunks.length
  | _, [] => rfl
  | k, c :: cs => by
    simp [contextPassagesFrom, contextPassagesFrom_length (k + 1) cs]

lemma contextPassagesFrom_get : ∀ (chunks : List Chunk) (k i : Nat) (h : i < chunks.length),
    (contextPassagesFrom k chunks).get
        ⟨i, by rw [contextPassagesFrom_length]; exact h⟩ =
      annotateChunk (k + i) (chunks.get ⟨i, h⟩)
  | c :: cs, k, 0, h => by simp [contextPassagesFrom]
  | c :: cs, k, i + 1, h => by
    have ih := contextPassagesFrom_get cs (k + 1) i (by
      simpa using Nat.lt_of_succ_lt_succ h)
    simp only [contextPassagesFrom, List.get_cons_succ]
    rw [ih]
    congr 1
    omega

/-- C3: the assembled context is the ranked-order join, by the fixed
separator, of one annotated passage per result, and the passage at 0-based
rank position i carries the 1-based index i + 1 and the result's source
name followed by its text. -/
theorem buildContext_ranked (chunks : List Chunk) (_hne : chunks ≠ []) :
    (contextPassagesFrom 0 chunks).length = chunks.length ∧
    (∀ (i : Nat) (hi : i < chunks.length),
      (contextPassagesFrom 0 chunks).get
          ⟨i, by rw [contextPassagesFrom_length]; exact hi⟩ =
        str "[" ++ natStr (i + 1) ++ str "] From \"" ++ (chunks.get ⟨i, hi⟩).source ++
          str "\":\n" ++ (chunks.get ⟨i, hi⟩).text) ∧
    buildContext chunks = joinSep CONTEXT_SEP (contextPassagesFrom 0 chunks) := by
  refine ⟨contextPassagesFrom_length 0 chunks, ?_, rfl⟩
  intro i hi
  have h := contextPassagesFrom_get chunks 0 i hi
  rw [h]
  simp [annotateChunk]

/-- Witness for C3: with two concrete results, the passage at rank position
1 carries the 1-based index 2 and the second result's source and text. -/
theorem buildContext_ranked_witness :
    (contextPassagesFrom 0 [⟨str "docA", str "tA", 90⟩, ⟨str "docB", str "tB", 80⟩]).get
        ⟨1, by decide⟩ =
      str "[" ++ natStr 2 ++ str "] From \"" ++ str "docB" ++ str "\":\n" ++ str "tB" :=
  (buildContext_ranked [⟨str "docA", str "tA", 90⟩, ⟨str "docB", str "tB", 80⟩]
    (by decide)).2.1 1 (by decide)

/-- Every result's full text occurs contiguously inside the joined context:
nothing is truncated mid-passage. -/
lemma buildContext_contains_text : ∀ (k : Nat) (chunks : List Chunk) (c : Chunk),
    c ∈ chunks →
    ∃ pre post, joinSep CONTEXT_SEP (contextPassagesFrom k chunks) = pre ++ c.text ++ post
  | k, d :: cs, c, hmem => by
    rcases List.mem_cons.mp hmem with hc | hc
    · subst hc
      cases cs with
      | nil =>
        exact ⟨str "[" ++ natStr (k + 1) ++ str "] From \"" ++ c.source ++ str "\":\n", [],
          by simp [joinSep, contextPassagesFrom, annotateChunk]⟩
      | cons e es =>
        refine ⟨str "[" ++ natStr (k + 1) ++ str "] From \"" ++ c.source ++ str "\":\n",
          CONTEXT_SEP ++ joinSep CONTEXT_SEP (contextPassagesFrom (k + 1) (e :: es)), ?_⟩
        simp [joinSep, contextPassagesFrom, annotateChunk]
    · rcases buildContext_contains_text (k + 1) cs c hc with ⟨pre, post, hpp⟩
      cases cs with
      | nil => simp at hc
      | cons e es =>
        refine ⟨annotateChunk k d ++ CONTEXT_SEP ++ pre, post, ?_⟩
        have hpass : contextPassagesFrom k (d :: e :: es) =
            annotateChunk k d :: contextPassagesFrom (k + 1) (e :: es) := rfl
        rw [hpass]
        have hsplit : joinSep CONTEXT_SEP
              (annotateChunk k d :: contextPassagesFrom (k + 1) (e :: es)) =
            annotateChunk k d ++ CONTEXT_SEP ++
              joinSep CONTEXT_SEP (contextPassagesFrom (k + 1) (e :: es)) := by
          cases hcc : contextPassagesFrom (k + 1) (e :: es) with
          | nil => simp [contextPassagesFrom] at hcc
          | cons a as => simp [joinSep]
        rw [hsplit, hpp]
        simp [List.append_assoc]

/-- The assembled context admits no finite size bound: a single result whose
text has length L + 1 already makes the context longer than L. -/
lemma buildContext_no_size_bound :
    ¬ ∃ L : Nat, ∀ chunks : List Chunk, (buildContext chunks).length ≤ L := by
  rintro ⟨L, hL⟩
  have h := hL [⟨[], List.replicate (L + 1) 'a', 0⟩]
  simp only [buildContext, contextPassagesFrom, joinSep, annotateChunk] at h
  simp only [List.length_append, List.length_replicate] at h
  omega

/-- C2 counterexample: the assembled context does not stay within any
configured total size — for every candidate bound L the concrete one-result
list with text of length L + 1 makes the context exceed L, and (per the
amended theorem) no result is ever dropped; so the claimed rank truncation
does not exist in the code. -/
theorem assembleContext_size_cex :
    ¬ ∃ L : Nat, ∀ chunks : List Chunk, (buildContext chunks).length ≤ L :=
  buildContext_no_size_bound

/-- C2 amended: the assembled prompt prepends the persona text; every
retrieved result's full text appears contiguously in the context (so no
result is truncated mid-passage and none is dropped); and no total size
bound is enforced — the context grows without bound with the results. -/
theorem assembleContext_amended :
    (∀ (persona : Str) (chunks : List Chunk),
      ∃ rest, assembleSystemPrompt persona chunks = persona ++ rest) ∧
    (∀ (chunks : List Chunk) (c : Chunk), c ∈ chunks →
      ∃ pre post, buildContext chunks = pre ++ c.text ++ post) ∧
    (¬ ∃ L : Nat, ∀ chunks : List Chunk, (buildContext chunks).length ≤ L) := by
  refine ⟨?_, ?_, buildContext_no_size_bound⟩
  · intro persona chunks
    exact ⟨CONTEXT_TAG ++ buildContext chunks, by simp [assembleSystemPrompt, List.append_assoc]⟩
  · intro chunks c hc
    exact buildContext_contains_text 0 chunks c hc

/-- Witness for the amended C2 at a concrete one-result list. -/
theorem assembleContext_amended_witness :
    (∃ rest, assembleSystemPrompt (str "P") [⟨str "d", str "t", 50⟩] = str "P" ++ rest) ∧
    (∃ pre post, buildContext [⟨str "d", str "t", 50⟩] = pre ++ str "t" ++ post) :=
  ⟨assembleContext_amended.1 (str "P") [⟨str "d", str "t", 50⟩],
   assembleContext_amended.2.1 [⟨str "d", str "t", 50⟩] ⟨str "d", str "t", 50⟩ (by decide)⟩

/-! ## Endpoint models

The chat endpoint POST handler and the Telegram handleQuestion handler are
modelled as pure functions over oracle environments; each returns the
ordered list of externally visible events it performs.  Awaited calls of the
source appear in the event list in execution order. -/

/-- Externally visible events of a request: a Telegram reply, a chat action,
a retrieval call queryAgent.retrieve(query, k), a completion call
streamText(system, user message), and an editMessageText call. -/
inductive Ev
  | reply (text : Str)
  | chatAction (action : Str)
  | retrieveEv (query : Str) (k : Nat)
  | completeEv (system : Str) (userMsg : Str)
  | editEv (messageId : Nat) (text : Str)
deriving DecidableEq

/-- Recognizer for retrieval events. -/
def isRetrieve : Ev → Bool
  | Ev.retrieveEv _ _ => true
  | _ => false

/-- Recognizer for completion events. -/
def isComplete : Ev → Bool
  | Ev.completeEv _ _ => true
  | _ => false

/-- Recognizer for message-edit events. -/
def isEdit : Ev → Bool
  | Ev.editEv _ _ => true
  | _ => false

/-- A chat message of the inbound messages array. -/
structure ChatMsg where
  role : Str
  content : Str
deriving DecidableEq

/-- The body of a chat endpoint response: a plain text body, the JSON body
JSON.stringify of an object with the single field error holding the message
(built by the catch branch), or the streamed answer. -/
inductive ChatBody
  | plain (s : Str)
  | errorJson (msg : Str)
  | stream (chunks : List Str)
deriving DecidableEq

/-- A Response with its HTTP status and body. -/
structure ChatResponse where
  status : Nat
  body : ChatBody
deriving DecidableEq

/-- Message of the Error thrown when config.openRouterApiKey is absent. -/
def OPENROUTER_KEY_ERR : Str := str "OpenRouter API key required"

/-- Message of the Error thrown when the Google key is absent. -/
def GOOGLE_KEY_ERR : Str := str "Google Generative AI API key required for embeddings"

/-- Oracle environment of the chat endpoint: whether the two credentials are
configured, the persona prompt text, the retrieval agent (which may fail
with a provider error), and the completion provider (which returns the
stream fragments or fails). -/
structure ChatEnv where
  hasOpenRouterKey : Bool
  hasGoogleKey : Bool
  persona : Str
  retrieve : Str → Nat → Except Str (List Chunk)
  complete : Str → List ChatMsg → Except Str (List Str)

/-- Placeholder for indexing; unreachable when messages is non-empty. -/
def defaultChatMsg : ChatMsg := ⟨[], []⟩

/-- Embedding of the chat endpoint POST handler: reject an empty messages
array with status 400; throw (and catch to a 500 JSON error body) on a
missing credential; retrieve with k = 10 for the last message's content;
assemble the system prompt; call the completion and stream it with status
200; any error reaches the catch branch as a 500 JSON error body. -/
def chatPOST (env : ChatEnv) (messages : List ChatMsg) : ChatResponse × List Ev :=
  if messages.length = 0 then
    (⟨400, ChatBody.plain (str "No messages provided")⟩, [])
  else if env.hasOpenRouterKey = false then
    (⟨500, ChatBody.errorJson OPENROUTER_KEY_ERR⟩, [])
  else if env.hasGoogleKey = false then
    (⟨500, ChatBody.errorJson GOOGLE_KEY_ERR⟩, [])
  else
    let query := (messages.getLastD defaultChatMsg).content
    match env.retrieve query 10 with
    | Except.error e => (⟨500, ChatBody.errorJson e⟩, [Ev.retrieveEv query 10])
    | Except.ok chunks =>
      let systemPrompt := assembleSystemPrompt env.persona chunks
      match env.complete systemPrompt messages with
      | Except.error e =>
        (⟨500, ChatBody.errorJson e⟩,
         [Ev.retrieveEv query 10, Ev.completeEv systemPrompt query])
      | Except.ok outs =>
        (⟨200, ChatBody.stream outs⟩,
         [Ev.retrieveEv query 10, Ev.completeEv systemPrompt query])

/-- The reply sent by handleQuestion when the rate limit check denies. -/
def RATE_LIMIT_MSG : Str :=
  str "⏳ Rate limit exceeded. Please wait a minute before asking another question."

/-- The reply sent by the catch branch of handleQuestion. -/
def GENERIC_ERROR_MSG : Str :=
  str "❌ Sorry, I encountered an error while processing your question. Please try again later."

/-- The JavaScript regular-expression whitespace class matched by a \s
pattern element. -/
def jsSpace (c : Char) : Bool :=
  c = ' ' ∨ c = '\t' ∨ c = '\n' ∨ c = '\x0b' ∨ c = '\x0c' ∨ c = '\r' ∨
  c = '\u00A0' ∨ c = '\u1680' ∨ ('\u2000' ≤ c ∧ c ≤ '\u200A') ∨
  c = '\u2028' ∨ c = '\u2029' ∨ c = '\u202F' ∨ c = '\u205F' ∨
  c = '\u3000' ∨ c = '\uFEFF'

/-- buffer.match of a pattern requiring a sentence-final punctuation mark
followed only by whitespace up to the end of the string: strip trailing
whitespace and test the last remaining character. -/
def matchesSentenceEnd (s : Str) : Bool :=
  match s.reverse.dropWhile jsSpace with
  | [] => false
  | c :: _ => c = '.' ∨ c = '!' ∨ c = '?'

/-- State of the for-await loop over result.textStream: the accumulated
fullResponse, the pending buffer, the updateCounter, and the edit events
issued so far. -/
structure StreamLoopState where
  fullResponse : Str
  buffer : Str
  updateCounter : Nat
  events : List Ev

/-- One iteration of the streaming loop (route.ts lines 118-143): append the
fragment to buffer and fullResponse; once the buffer passes 50 characters or
ends a sentence, bump the counter, attempt an in-place edit on every third
bump (a failed attempt is swallowed), and clear the buffer. -/
def streamStep (messageId : Nat) (st : StreamLoopState) (chunk : Str) : StreamLoopState :=
  let buffer := st.buffer ++ chunk
  let fullResponse := st.fullResponse ++ chunk
  if 50 < buffer.length ∨ matchesSentenceEnd buffer then
    let counter := st.updateCounter + 1
    if counter % 3 = 0 then
      ⟨fullResponse, [], counter,
       st.events ++ [Ev.editEv messageId (fullResponse ++ str "...")]⟩
    else
      ⟨fullResponse, [], counter, st.events⟩
  else
    ⟨fullResponse, buffer, st.updateCounter, st.events⟩

/-- The per-source lines appended by the forEach over the top five results
(route.ts lines 149-151). -/
def sourceLines : Nat → List Chunk → Str
  | _, [] => []
  | i, c :: cs =>
    str "\n" ++ natStr (i + 1) ++ str ". " ++ c.source ++ str " (relevance: " ++
      natStr c.scorePct ++ str "%)" ++ sourceLines (i + 1) cs

/-- The sources block appended to fullResponse when any results were
retrieved (route.ts lines 146-152). -/
def sourcesBlock (chunks : List Chunk) : Str :=
  if chunks.length = 0 then [] else
    str "\n\n📚 Sources:" ++ sourceLines 0 (chunks.take 5)

/-- Oracle environment of handleQuestion: credentials, persona prompt,
retrieval agent, completion provider returning the stream fragments, the
message id of the initially sent placeholder message, and whether the final
editMessageText call succeeds. -/
structure BotEnv where
  hasOpenRouterKey : Bool
  hasGoogleKey : Bool
  persona : Str
  retrieve : Str → Nat → Except Str (List Chunk)
  complete : Str → Str → Except Str (List Str)
  sentMessageId : Nat
  finalEditOk : Bool

/-- Embedding of handleQuestion (route.ts lines 65-173): deny with the rate
limit reply when checkRateLimit returns false; otherwise send the typing
action, fall to the catch branch reply on a missing credential or a
retrieval or completion failure, and on success retrieve with k = 20, call
the completion with the assembled system prompt, send the placeholder
reply, run the streaming loop, append the sources block, and finish with
the final edit, falling back to a fresh reply when that edit fails. -/
def handleQuestion (env : BotEnv) (rl : Str → List Int) (userId : Str) (now : Int)
    (question : Str) : List Ev × (Str → List Int) :=
  match checkRateLimit userId now rl with
  | (false, rl2) => ([Ev.reply RATE_LIMIT_MSG], rl2)
  | (true, rl2) =>
    let evs0 := [Ev.chatAction (str "typing")]
    if env.hasOpenRouterKey = false then
      (evs0 ++ [Ev.reply GENERIC_ERROR_MSG], rl2)
    else if env.hasGoogleKey = false then
      (evs0 ++ [Ev.reply GENERIC_ERROR_MSG], rl2)
    else
      match env.retrieve question 20 with
      | Except.error _ =>
        (evs0 ++ [Ev.retrieveEv question 20, Ev.reply GENERIC_ERROR_MSG], rl2)
      | Except.ok chunks =>
        let systemPrompt := assembleSystemPrompt env.persona chunks
        match env.complete systemPrompt question with
        | Except.error _ =>
          (evs0 ++ [Ev.retrieveEv question 20, Ev.completeEv systemPrompt question,
            Ev.reply GENERIC_ERROR_MSG], rl2)
        | Except.ok streamParts =>
          let evs1 := evs0 ++ [Ev.retrieveEv question 20,
            Ev.completeEv systemPrompt question, Ev.reply (str "💫 ...")]
          let loopEnd := streamParts.foldl (streamStep env.sentMessageId)
            ⟨str "💫 ", [], 0, []⟩
          let fullResponse := loopEnd.fullResponse ++ sourcesBlock chunks
          let evs2 := evs1 ++ loopEnd.events
          if env.finalEditOk then
            (evs2 ++ [Ev.editEv env.sentMessageId fullResponse], rl2)
          else
            (evs2 ++ [Ev.editEv env.sentMessageId fullResponse, Ev.reply fullResponse], rl2)

/-- An edit event is neither a retrieval nor a completion event. -/
lemma isEdit_not_retrieve_complete (e : Ev) (h : isEdit e = true) :
    isRetrieve e = false ∧ isComplete e = false := by
  cases e <;> simp_all [isEdit, isRetrieve, isComplete]

/-- The streaming loop only ever issues edit events. -/
lemma streamLoop_events_edit (messageId : Nat) :
    ∀ (parts : List Str) (st : StreamLoopState),
      (∀ e ∈ st.events, isEdit e = true) →
      ∀ e ∈ (parts.foldl (streamStep messageId) st).events, isEdit e = true
  | [], st, h, e, he => h e he
  | p :: rest, st, h, e, he => by
    refine streamLoop_events_edit messageId rest (streamStep messageId st p) ?_ e he
    intro e' he'
    simp only [streamStep] at he'
    by_cases hc : 50 < (st.buffer ++ p).length ∨ matchesSentenceEnd (st.buffer ++ p)
    · rw [if_pos hc] at he'
      by_cases hm : (st.updateCounter + 1) % 3 = 0
      · rw [if_pos hm] at he'
        simp only [List.mem_append, List.mem_singleton] at he'
        rcases he' with he' | he'
        · exact h e' he'
        · subst he'; rfl
      · rw [if_neg hm] at he'
        exact h e' he'
    · rw [if_neg hc] at he'
      exact h e' he'

/-- The streaming loop accumulates exactly the concatenation of all stream
fragments onto the initial fullResponse. -/
lemma streamLoop_fullResponse (messageId : Nat) :
    ∀ (parts : List Str) (st : StreamLoopState),
      (parts.foldl (streamStep messageId) st).fullResponse =
        st.fullResponse ++ parts.flatten
  | [], st => by simp
  | p :: rest, st => by
    have ih := streamLoop_fullResponse messageId rest (streamStep messageId st p)
    simp only [List.foldl, ih, List.flatten]
    have hfr : (streamStep messageId st p).fullResponse = st.fullResponse ++ p := by
      simp only [streamStep]
      by_cases hc : 50 < (st.buffer ++ p).length ∨ matchesSentenceEnd (st.buffer ++ p)
      · rw [if_pos hc]
        by_cases hm : (st.updateCounter + 1) % 3 = 0
        · rw [if_pos hm]
        · rw [if_neg hm]
      · rw [if_neg hc]
    rw [hfr, List.append_assoc]

/-- The full event trace of handleQuestion on the success path. -/
lemma handleQuestion_success_trace (env : BotEnv) (rl : Str → List Int)
    (userId : Str) (now : Int) (question : Str) (chunks : List Chunk) (outs : List Str)
    (hrl : (checkRateLimit userId now rl).1 = true)
    (hor : env.hasOpenRouterKey = true) (hg : env.hasGoogleKey = true)
    (hret : env.retrieve question 20 = Except.ok chunks)
    (hcomp : env.complete (assembleSystemPrompt env.persona chunks) question =
      Except.ok outs) :
    (handleQuestion env rl userId now question).1 =
      [Ev.chatAction (str "typing"), Ev.retrieveEv question 20,
       Ev.completeEv (assembleSystemPrompt env.persona chunks) question,
       Ev.reply (str "💫 ...")] ++
      (outs.foldl (streamStep env.sentMessageId) ⟨str "💫 ", [], 0, []⟩).events ++
      (if env.finalEditOk then
        [Ev.editEv env.sentMessageId
          (str "💫 " ++ outs.flatten ++ sourcesBlock chunks)]
       else
        [Ev.editEv env.sentMessageId (str "💫 " ++ outs.flatten ++ sourcesBlock chunks),
         Ev.reply (str "💫 " ++ outs.flatten ++ sourcesBlock chunks)]) := by
  rcases hq : checkRateLimit userId now rl with ⟨b, rl2⟩
  cases b
  · rw [hq] at hrl; simp at hrl
  · have hfull := streamLoop_fullResponse env.sentMessageId outs ⟨str "💫 ", [], 0, []⟩
    simp only [handleQuestion, hq, hor, hg, hret, hcomp, hfull]
    by_cases hfin : env.finalEditOk = true <;>
      simp [hfin, List.append_assoc]

/-- C4: in both endpoints the retrieval call completes before the completion
call begins and the retrieved context is part of the completion call's
input: the chat endpoint's trace is exactly retrieval followed by a
completion whose system prompt embeds the context assembled from the
retrieved chunks, and the bot handler's trace puts the retrieval strictly
before the completion with no other retrieval or completion event. -/
theorem retrieval_precedes_completion :
    (∀ (env : ChatEnv) (messages : List ChatMsg) (chunks : List Chunk) (outs : List Str),
      messages.length ≠ 0 → env.hasOpenRouterKey = true → env.hasGoogleKey = true →
      env.retrieve (messages.getLastD defaultChatMsg).content 10 = Except.ok chunks →
      env.complete (assembleSystemPrompt env.persona chunks) messages = Except.ok outs →
      (chatPOST env messages).2 =
        [Ev.retrieveEv (messages.getLastD defaultChatMsg).content 10,
         Ev.completeEv (assembleSystemPrompt env.persona chunks)
           (messages.getLastD defaultChatMsg).content]) ∧
    (∀ (env : BotEnv) (rl : Str → List Int) (userId : Str) (now : Int)
        (question : Str) (chunks : List Chunk) (outs : List Str),
      (checkRateLimit userId now rl).1 = true →
      env.hasOpenRouterKey = true → env.hasGoogleKey = true →
      env.retrieve question 20 = Except.ok chunks →
      env.complete (assembleSystemPrompt env.persona chunks) question = Except.ok outs →
      ∃ tail,
        (handleQuestion env rl userId now question).1 =
          Ev.chatAction (str "typing") :: Ev.retrieveEv question 20 ::
            Ev.completeEv (assembleSystemPrompt env.persona chunks) question :: tail ∧
        ∀ e ∈ tail, isRetrieve e = false ∧ isComplete e = false) := by
  constructor
  · intro env messages chunks outs hne hor hg hret hcomp
    simp only [chatPOST, if_neg hne, hor, hg, hret, hcomp]
    simp
  · intro env rl userId now question chunks outs hrl hor hg hret hcomp
    have htr := handleQuestion_success_trace env rl userId now question chunks outs
      hrl hor hg hret hcomp
    refine ⟨Ev.reply (str "💫 ...") ::
      (outs.foldl (streamStep env.sentMessageId) ⟨str "💫 ", [], 0, []⟩).events ++
      (if env.finalEditOk then
        [Ev.editEv env.sentMessageId (str "💫 " ++ outs.flatten ++ sourcesBlock chunks)]
       else
        [Ev.editEv env.sentMessageId (str "💫 " ++ outs.flatten ++ sourcesBlock chunks),
         Ev.reply (str "💫 " ++ outs.flatten ++ sourcesBlock chunks)]), ?_, ?_⟩
    · rw [htr]
      simp [List.append_assoc]
    · intro e he
      rcases List.mem_cons.mp he with he | he
      · subst he; exact ⟨rfl, rfl⟩
      rcases List.mem_append.mp he with he | he
      · have hed := streamLoop_events_edit env.sentMessageId outs
          ⟨str "💫 ", [], 0, []⟩ (by intro e' he'; simp at he') e he
        exact isEdit_not_retrieve_complete e hed
      · by_cases hfin : env.finalEditOk = true
        · rw [if_pos hfin] at he
          simp only [List.mem_singleton] at he
          subst he; exact ⟨rfl, rfl⟩
        · rw [if_neg hfin] at he
          simp only [List.mem_cons, List.not_mem_nil, or_false] at he
          rcases he with he | he <;> (subst he; exact ⟨rfl, rfl⟩)

/-- C5: every failure of the chat query path (missing OpenRouter or Google
credential, retrieval provider error, completion provider error) yields the
JSON error-object body carrying the short human-readable message together
with status 500, which is not a 2xx status; and an error body is never the
stream body, so no failure is presented as a completed answer. -/
theorem chatPOST_failure_json (env : ChatEnv) (messages : List ChatMsg)
    (hne : messages.length ≠ 0) :
    (env.hasOpenRouterKey = false →
      (chatPOST env messages).1 = ⟨500, ChatBody.errorJson OPENROUTER_KEY_ERR⟩) ∧
    (env.hasOpenRouterKey = true → env.hasGoogleKey = false →
      (chatPOST env messages).1 = ⟨500, ChatBody.errorJson GOOGLE_KEY_ERR⟩) ∧
    (∀ e, env.hasOpenRouterKey = true → env.hasGoogleKey = true →
      env.retrieve (messages.getLastD defaultChatMsg).content 10 = Except.error e →
      (chatPOST env messages).1 = ⟨500, ChatBody.errorJson e⟩) ∧
    (∀ chunks e, env.hasOpenRouterKey = true → env.hasGoogleKey = true →
      env.retrieve (messages.getLastD defaultChatMsg).content 10 = Except.ok chunks →
      env.complete (assembleSystemPrompt env.persona chunks) messages = Except.error e →
      (chatPOST env messages).1 = ⟨500, ChatBody.errorJson e⟩) ∧
    (¬ (200 ≤ 500 ∧ 500 < 300)) ∧
    (∀ msg outs, ChatBody.errorJson msg ≠ ChatBody.stream outs) := by
  refine ⟨?_, ?_, ?_, ?_, by omega, by intro msg outs h; cases h⟩
  · intro hor
    simp only [chatPOST]
    rw [if_neg hne, hor]
    rfl
  · intro hor hg
    simp only [chatPOST]
    rw [if_neg hne, hor, hg]
    rfl
  · intro e hor hg hret
    simp only [chatPOST]
    rw [if_neg hne, hor, hg, hret]
    rfl
  · intro chunks e hor hg hret hcomp
    simp only [chatPOST]
    rw [if_neg hne, hor, hg, hret]
    dsimp only
    rw [hcomp]
    rfl

/-- C6: when checkRateLimit denies the caller, handleQuestion replies with
exactly the distinct rate-limit message telling the caller to wait, its
trace contains no retrieval and no completion event, and that message
differs from the generic failure reply. -/
theorem handleQuestion_rate_limited (env : BotEnv) (rl : Str → List Int)
    (userId : Str) (now : Int) (question : Str)
    (hrl : (checkRateLimit userId now rl).1 = false) :
    (handleQuestion env rl userId now question).1 = [Ev.reply RATE_LIMIT_MSG] ∧
    (∀ q k, Ev.retrieveEv q k ∉ (handleQuestion env rl userId now question).1) ∧
    (∀ s u, Ev.completeEv s u ∉ (handleQuestion env rl userId now question).1) ∧
    RATE_LIMIT_MSG ≠ GENERIC_ERROR_MSG := by
  rcases hq : checkRateLimit userId now rl with ⟨b, rl2⟩
  cases b
  · refine ⟨by simp [handleQuestion, hq], ?_, ?_, by decide⟩
    · intro q k
      simp [handleQuestion, hq]
    · intro s u
      simp [handleQuestion, hq]
  · rw [hq] at hrl; simp at hrl

/-- C7: on the success path, when the final in-place edit of the previously
sent message fails, handleQuestion ends by sending the complete assembled
response (placeholder prefix, all stream fragments, sources block) as a new
reply message immediately after the failed edit attempt, so the output is
not lost and no error escapes. -/
theorem handleQuestion_edit_fallback (env : BotEnv) (rl : Str → List Int)
    (userId : Str) (now : Int) (question : Str) (chunks : List Chunk) (outs : List Str)
    (hrl : (checkRateLimit userId now rl).1 = true)
    (hor : env.hasOpenRouterKey = true) (hg : env.hasGoogleKey = true)
    (hret : env.retrieve question 20 = Except.ok chunks)
    (hcomp : env.complete (assembleSystemPrompt env.persona chunks) question =
      Except.ok outs)
    (hfail : env.finalEditOk = false) :
    ∃ pre,
      (handleQuestion env rl userId now question).1 =
        pre ++
          [Ev.editEv env.sentMessageId (str "💫 " ++ outs.flatten ++ sourcesBlock chunks),
           Ev.reply (str "💫 " ++ outs.flatten ++ sourcesBlock chunks)] := by
  have htr := handleQuestion_success_trace env rl userId now question chunks outs
    hrl hor hg hret hcomp
  rw [hfail] at htr
  simp only [Bool.false_eq_true, if_false] at htr
  exact ⟨_, by rw [htr, List.append_assoc]⟩

/-- C8: the retrieval count k is passed at each call site of the shared
retrieval agent: the chat endpoint's trace retrieves with k = 10 while the
bot endpoint's trace retrieves with k = 20, and 10 < 20. -/
theorem retrieve_k_per_call_site :
    (∀ (env : ChatEnv) (messages : List ChatMsg),
      messages.length ≠ 0 → env.hasOpenRouterKey = true → env.hasGoogleKey = true →
      Ev.retrieveEv (messages.getLastD defaultChatMsg).content 10 ∈
        (chatPOST env messages).2) ∧
    (∀ (env : BotEnv) (rl : Str → List Int) (userId : Str) (now : Int) (question : Str),
      (checkRateLimit userId now rl).1 = true →
      env.hasOpenRouterKey = true → env.hasGoogleKey = true →
      Ev.retrieveEv question 20 ∈ (handleQuestion env rl userId now question).1) ∧
    (10 : Nat) < 20 := by
  refine ⟨?_, ?_, by omega⟩
  · intro env messages hne hor hg
    cases hret : env.retrieve (messages.getLastD defaultChatMsg).content 10 with
    | error e =>
      simp only [chatPOST]
      rw [if_neg hne, hor, hg, hret]
      dsimp only
      simp
    | ok chunks =>
      cases hcomp : env.complete (assembleSystemPrompt env.persona chunks) messages with
      | error e =>
        simp only [chatPOST]
        rw [if_neg hne, hor, hg, hret]
        dsimp only
        rw [hcomp]
        simp
      | ok outs =>
        simp only [chatPOST]
        rw [if_neg hne, hor, hg, hret]
        dsimp only
        rw [hcomp]
        simp
  · intro env rl userId now question hrl hor hg
    rcases hq : checkRateLimit userId now rl with ⟨b, rl2⟩
    cases b
    · rw [hq] at hrl; simp at hrl
    · cases hret : env.retrieve question 20 with
      | error e => simp [handleQuestion, hq, hor, hg, hret]
      | ok chunks =>
        cases hcomp : env.complete (assembleSystemPrompt env.persona chunks) question with
        | error e => simp [handleQuestion, hq, hor, hg, hret, hcomp]
        | ok outs =>
          by_cases hfin : env.finalEditOk = true <;>
            simp [handleQuestion, hq, hor, hg, hret, hcomp, hfin]

/-- Concrete data for the witnesses. -/
def msgEx : ChatMsg := ⟨str "user", str "q"⟩

/-- A chat environment with both credentials and trivial oracles. -/
def chatEnvOk : ChatEnv :=
  ⟨true, true, str "P", fun _ _ => Except.ok [], fun _ _ => Except.ok []⟩

/-- A chat environment lacking the OpenRouter credential. -/
def chatEnvNoKey : ChatEnv :=
  ⟨false, true, str "P", fun _ _ => Except.ok [], fun _ _ => Except.ok []⟩

/-- A chat environment whose retrieval fails. -/
def chatEnvRetErr : ChatEnv :=
  ⟨true, true, str "P", fun _ _ => Except.error (str "boom"), fun _ _ => Except.ok []⟩

/-- A bot environment on the success path. -/
def botEnvOk : BotEnv :=
  ⟨true, true, str "P", fun _ _ => Except.ok [], fun _ _ => Except.ok [], 7, true⟩

/-- A bot environment whose final edit fails. -/
def botEnvEditFail : BotEnv :=
  ⟨true, true, str "P", fun _ _ => Except.ok [], fun _ _ => Except.ok [str "Hi."], 7, false⟩

/-- A rate-limit map holding ten timestamps for every identity. -/
def rlFull : Str → List Int := fun _ => [0, 0, 0, 0, 0, 0, 0, 0, 0, 0]

/-- Witness for C4 at concrete environments and a one-message request. -/
theorem retrieval_precedes_completion_witness :
    ((chatPOST chatEnvOk [msgEx]).2 =
      [Ev.retrieveEv (str "q") 10,
       Ev.completeEv (assembleSystemPrompt (str "P") []) (str "q")]) ∧
    (∃ tail,
      (handleQuestion botEnvOk (fun _ => []) (str "u") 0 (str "q")).1 =
        Ev.chatAction (str "typing") :: Ev.retrieveEv (str "q") 20 ::
          Ev.completeEv (assembleSystemPrompt (str "P") []) (str "q") :: tail ∧
      ∀ e ∈ tail, isRetrieve e = false ∧ isComplete e = false) :=
  ⟨retrieval_precedes_completion.1 chatEnvOk [msgEx] [] [] (by decide) rfl rfl rfl rfl,
   retrieval_precedes_completion.2 botEnvOk (fun _ => []) (str "u") 0 (str "q") [] []
     (by decide) rfl rfl rfl rfl⟩

/-- Witness for C5: a missing credential and a failed retrieval both yield
the 500 JSON error body. -/
theorem chatPOST_failure_json_witness :
    ((chatPOST chatEnvNoKey [msgEx]).1 = ⟨500, ChatBody.errorJson OPENROUTER_KEY_ERR⟩) ∧
    ((chatPOST chatEnvRetErr [msgEx]).1 = ⟨500, ChatBody.errorJson (str "boom")⟩) :=
  ⟨(chatPOST_failure_json chatEnvNoKey [msgEx] (by decide)).1 rfl,
   (chatPOST_failure_json chatEnvRetErr [msgEx] (by decide)).2.2.1 (str "boom") rfl rfl rfl⟩

/-- Witness for C6 at a saturated rate-limit map. -/
theorem handleQuestion_rate_limited_witness :
    ((handleQuestion botEnvOk rlFull (str "u") 0 (str "q")).1 = [Ev.reply RATE_LIMIT_MSG]) ∧
    RATE_LIMIT_MSG ≠ GENERIC_ERROR_MSG :=
  ⟨(handleQuestion_rate_limited botEnvOk rlFull (str "u") 0 (str "q") (by decide)).1,
   (handleQuestion_rate_limited botEnvOk rlFull (str "u") 0 (str "q") (by decide)).2.2.2⟩

/-- Witness for C7 with a one-fragment stream and a failing final edit. -/
theorem handleQuestion_edit_fallback_witness :
    ∃ pre,
      (handleQuestion botEnvEditFail (fun _ => []) (str "u") 0 (str "q")).1 =
        pre ++
          [Ev.editEv 7 (str "💫 " ++ List.flatten [str "Hi."] ++ sourcesBlock []),
           Ev.reply (str "💫 " ++ List.flatten [str "Hi."] ++ sourcesBlock [])] :=
  handleQuestion_edit_fallback botEnvEditFail (fun _ => []) (str "u") 0 (str "q") []
    [str "Hi."] (by decide) rfl rfl rfl rfl rfl

/-- Witness for C8 at concrete environments. -/
theorem retrieve_k_per_call_site_witness :
    (Ev.retrieveEv (str "q") 10 ∈ (chatPOST chatEnvOk [msgEx]).2) ∧
    (Ev.retrieveEv (str "q") 20 ∈ (handleQuestion botEnvOk (fun _ => []) (str "u") 0 (str "q")).1) :=
  ⟨retrieve_k_per_call_site.1 chatEnvOk [msgEx] (by decide) rfl rfl,
   retrieve_k_per_call_site.2.1 botEnvOk (fun _ => []) (str "u") 0 (str "q") (by decide) rfl rfl⟩

/-! ## splitMessage (route.ts lines 175-195) -/

/-- The loop of splitMessage over the newline-separated lines, carrying
currentChunk: when currentChunk.length + line.length + 1 exceeds maxLength
the chunk is pushed and the line starts the next chunk; otherwise the line
is appended, preceded by a newline when currentChunk is non-empty; a final
non-empty currentChunk is pushed. -/
def splitMessageChunks (maxLength : Nat) : List Str → Str → List Str
  | [], curr => if curr.isEmpty then [] else [curr]
  | line :: rest, curr =>
    if maxLength < curr.length + line.length + 1 then
      curr :: splitMessageChunks maxLength rest line
    else
      splitMessageChunks maxLength rest
        (curr ++ (if curr.isEmpty then [] else ['\n']) ++ line)

/-- Embedding of splitMessage: run the loop over text.split of the newline
character with an empty initial chunk. -/
def splitMessage (text : Str) (maxLength : Nat) : List Str :=
  splitMessageChunks maxLength (text.splitOn '\n') []

/-- joinSep agrees with List.intercalate. -/
lemma joinSep_eq_intercalate (sep : Str) : ∀ ls : List Str, joinSep sep ls = sep.intercalate ls
  | [] => by simp [joinSep, List.intercalate]
  | [x] => by simp [joinSep, List.intercalate]
  | x :: y :: xs => by
    have ih := joinSep_eq_intercalate sep (y :: xs)
    simp only [joinSep, List.intercalate] at *
    simp [List.intersperse, ih, List.flatten]

/-- Unfolding of joinSep on a cons with a non-empty tail. -/
lemma joinSep_cons (sep : Str) (x : Str) (xs : List Str) (h : xs ≠ []) :
    joinSep sep (x :: xs) = x ++ sep ++ joinSep sep xs := by
  cases xs with
  | nil => exact absurd rfl h
  | cons y ys => rfl

/-- With a non-empty current chunk the loop returns at least one chunk. -/
lemma splitMessageChunks_ne_nil (maxLength : Nat) :
    ∀ (lines : List Str) (curr : Str), curr ≠ [] →
      splitMessageChunks maxLength lines curr ≠ []
  | [], curr, h => by
    simp only [splitMessageChunks]
    rw [if_neg (by simpa using h)]
    simp
  | line :: rest, curr, h => by
    simp only [splitMessageChunks]
    by_cases hc : maxLength < curr.length + line.length + 1
    · rw [if_pos hc]
      simp
    · rw [if_neg hc]
      exact splitMessageChunks_ne_nil maxLength rest _ (by
        intro hcon
        exact h (List.append_eq_nil.mp (List.append_eq_nil.mp hcon).1).1)

/-- Loop invariant: when every remaining line is non-empty and shorter than
maxLength and the current chunk is non-empty and within bound, the produced
chunks are non-empty, within bound, and rejoin to the current chunk plus
the remaining lines. -/
lemma splitMessageChunks_sound (maxLength : Nat) :
    ∀ (lines : List Str) (curr : Str),
      (∀ l ∈ lines, l ≠ [] ∧ l.length < maxLength) →
      curr ≠ [] → curr.length ≤ maxLength →
      joinSep ['\n'] (splitMessageChunks maxLength lines curr) =
        joinSep ['\n'] (curr :: lines) ∧
      (∀ c ∈ splitMessageChunks maxLength lines curr, c ≠ [] ∧ c.length ≤ maxLength)
  | [], curr, hlines, hne, hlen => by
    simp only [splitMessageChunks]
    rw [if_neg (by simpa using hne)]
    exact ⟨rfl, by
      intro c hc
      rw [List.mem_singleton] at hc
      subst hc
      exact ⟨hne, hlen⟩⟩
  | line :: rest, curr, hlines, hne, hlen => by
    have hline := hlines line (by simp)
    have hrest : ∀ l ∈ rest, l ≠ [] ∧ l.length < maxLength := by
      intro l hl; exact hlines l (by simp [hl])
    simp only [splitMessageChunks]
    by_cases hc : maxLength < curr.length + line.length + 1
    · rw [if_pos hc]
      have ih := splitMessageChunks_sound maxLength rest line hrest hline.1
        (Nat.le_of_lt hline.2)
      refine ⟨?_, ?_⟩
      · rw [joinSep_cons _ _ _ (splitMessageChunks_ne_nil maxLength rest line hline.1), ih.1]
        exact (joinSep_cons _ curr (line :: rest) (by simp)).symm
      · intro c hcm
        rcases List.mem_cons.mp hcm with hcm | hcm
        · subst hcm; exact ⟨hne, hlen⟩
        · exact ih.2 c hcm
    · rw [if_neg hc]
      rw [if_neg (by simpa using hne)]
      have hnew_ne : curr ++ ['\n'] ++ line ≠ [] := by simp
      have hnew_len : (curr ++ ['\n'] ++ line).length ≤ maxLength := by
        simp only [List.length_append, List.length_cons, List.length_nil]
        omega
      have ih := splitMessageChunks_sound maxLength rest (curr ++ ['\n'] ++ line)
        hrest hnew_ne hnew_len
      refine ⟨?_, ih.2⟩
      rw [ih.1]
      cases rest with
      | nil => simp [joinSep]
      | cons r rs =>
        simp only [joinSep]
        simp [List.append_assoc]

/-- C10 counterexample: for the text with lines aaa, empty, empty, b and
maxLength 4 every line is shorter than maxLength and maxLength is positive,
yet splitMessage loses a newline: the chunks rejoin to a text with one
newline fewer, so joining the chunks does not restore the original text. -/
theorem splitMessage_roundtrip_cex :
    (0 < 4) ∧
    (∀ l ∈ (str "aaa\n\n\nb").splitOn '\n', l.length < 4) ∧
    splitMessage (str "aaa\n\n\nb") 4 = [str "aaa\n", str "b"] ∧
    joinSep ['\n'] (splitMessage (str "aaa\n\n\nb") 4) ≠ str "aaa\n\n\nb" := by
  decide

/-- C10 amended: additionally requiring every newline-separated line to be
non-empty, every chunk of splitMessage text maxLength is non-empty and at
most maxLength long, and joining the chunks with a single newline restores
the original text exactly. -/
theorem splitMessage_amended (text : Str) (maxLength : Nat) (_hpos : 0 < maxLength)
    (hlines : ∀ l ∈ text.splitOn '\n', l ≠ [] ∧ l.length < maxLength) :
    (∀ c ∈ splitMessage text maxLength, c ≠ [] ∧ c.length ≤ maxLength) ∧
    joinSep ['\n'] (splitMessage text maxLength) = text := by
  have hsplit : text.splitOn '\n' ≠ [] := List.splitOnP_ne_nil _ text
  rcases hfirst : text.splitOn '\n' with _ | ⟨l1, rest⟩
  · exact absurd hfirst hsplit
  · have hl1 := hlines l1 (by rw [hfirst]; simp)
    have hrest : ∀ l ∈ rest, l ≠ [] ∧ l.length < maxLength := by
      intro l hl; exact hlines l (by rw [hfirst]; simp [hl])
    have hstep : splitMessage text maxLength = splitMessageChunks maxLength rest l1 := by
      simp only [splitMessage, hfirst, splitMessageChunks]
      rw [if_neg (by simp; omega)]
      simp
    have hsound := splitMessageChunks_sound maxLength rest l1 hrest hl1.1
      (Nat.le_of_lt hl1.2)
    refine ⟨by rw [hstep]; exact hsound.2, ?_⟩
    rw [hstep, hsound.1, joinSep_eq_intercalate]
    rw [← hfirst]
    exact List.intercalate_splitOn text '\n'

/-- Witness for the amended C10 at a concrete two-line text. -/
theorem splitMessage_amended_witness :
    (∀ c ∈ splitMessage (str "ab\ncd") 5, c ≠ [] ∧ c.length ≤ 5) ∧
    joinSep ['\n'] (splitMessage (str "ab\ncd") 5) = str "ab\ncd" :=
  splitMessage_amended (str "ab\ncd") 5 (by decide) (by decide)
